import Mathlib

/-!
# Verification of the GoQuant trade-simulator core

Shallow embedding of the repository's Python sources:

* `src/websocket/client.py`  — `WebSocketClient` (receive loop, validation,
  dispatch, reconnection backoff);
* `src/models/slippage.py`   — `SlippageModel`;
* `src/models/market_impact.py` — `MarketImpactModel`;
* `src/models/maker_taker.py`   — `MakerTakerModel`;
* `src/ui/main_window.py`    — fee table and per-update aggregation.

Modelling conventions:

* Python/numpy floating-point values are modelled by the type `FP`:
  an exact rational payload extended with `inf`, `ninf` and `nan`, with
  arithmetic following IEEE-754 special-value rules (binary rounding is
  abstracted away: rational arithmetic is exact; decimal literals such as
  `0.1` are modelled by their decimal value).  This captures the
  numpy behaviour that matters here: division by zero and operations on
  degenerate data produce `inf`/`nan` silently instead of raising.
* Transcendental functions (`np.sqrt`, `np.log10`, `exp` inside the
  logistic sigmoid) are passed in as explicit rational-valued function
  parameters; the wrappers `FP.sqrtWith`, `FP.log10With`, `FP.expWith`
  add the IEEE special-value behaviour of the numpy functions.
* Python exceptions are modelled with `Except String`; a `try/except`
  boundary in the source becomes a `match` on the `Except` value.
* scikit-learn behaviour visible at the model boundary is embedded from
  its documented contract: `transform`/`predict`/`predict_proba` validate
  their input (raising on non-finite entries or a feature-count mismatch),
  and binary `predict_proba` returns the pair `(1 − σ(z), σ(z))`.
-/

/-- IEEE-style numeric value: exact rational, `±∞` or `NaN`.
Models a Python/numpy double with rounding abstracted away. -/
inductive FP where
  | num (q : ℚ)
  | inf
  | ninf
  | nan
deriving DecidableEq, Repr

namespace FP

/-- IEEE negation. -/
def neg : FP → FP
  | num q => num (-q)
  | inf => ninf
  | ninf => inf
  | nan => nan

/-- IEEE addition (`∞ + (−∞) = NaN`, `NaN` absorbs). -/
def add : FP → FP → FP
  | nan, _ => nan
  | _, nan => nan
  | inf, ninf => nan
  | ninf, inf => nan
  | inf, _ => inf
  | _, inf => inf
  | ninf, _ => ninf
  | _, ninf => ninf
  | num a, num b => num (a + b)

/-- IEEE subtraction. -/
def sub (a b : FP) : FP := add a (neg b)

/-- IEEE multiplication (`0 × ∞ = NaN`, signs propagate). -/
def mul : FP → FP → FP
  | nan, _ => nan
  | _, nan => nan
  | num a, num b => num (a * b)
  | num a, inf => if a = 0 then nan else if 0 < a then inf else ninf
  | num a, ninf => if a = 0 then nan else if 0 < a then ninf else inf
  | inf, num b => if b = 0 then nan else if 0 < b then inf else ninf
  | ninf, num b => if b = 0 then nan else if 0 < b then ninf else inf
  | inf, inf => inf
  | inf, ninf => ninf
  | ninf, inf => ninf
  | ninf, ninf => inf

/-- IEEE division: finite/0 gives a signed infinity (`0/0 = NaN`),
finite/∞ gives 0, ∞/∞ gives `NaN`.  Signed zeros are not modelled. -/
def div : FP → FP → FP
  | nan, _ => nan
  | _, nan => nan
  | num a, num b =>
      if b = 0 then (if a = 0 then nan else if 0 < a then inf else ninf)
      else num (a / b)
  | num _, inf => num 0
  | num _, ninf => num 0
  | inf, num b => if 0 ≤ b then inf else ninf
  | ninf, num b => if 0 ≤ b then ninf else inf
  | inf, inf => nan
  | inf, ninf => nan
  | ninf, inf => nan
  | ninf, ninf => nan

/-- IEEE strict comparison as used by Python's `<`/`>`:
any comparison involving `NaN` is `false`. -/
def lt : FP → FP → Bool
  | nan, _ => false
  | _, nan => false
  | num a, num b => decide (a < b)
  | num _, inf => true
  | num _, ninf => false
  | inf, _ => false
  | ninf, ninf => false
  | ninf, _ => true

/-- Python's builtin `max(a, b)`: returns `b` iff `b > a`
(so `max(a, NaN) = a`). -/
def pyMax (a b : FP) : FP := if lt a b then b else a

/-- Python's builtin `min(a, b)`: returns `b` iff `b < a`
(so `min(a, NaN) = a`). -/
def pyMin (a b : FP) : FP := if lt b a then b else a

/-- `abs` on IEEE values (`abs NaN = NaN`). -/
def fabs : FP → FP
  | num q => num |q|
  | nan => nan
  | _ => inf

/-- `np.sum` of a list of values (empty sum is `0.0`). -/
def sum (l : List FP) : FP := l.foldl add (num 0)

/-- `np.mean`: sum divided by length; `np.mean([])` is `0/0 = NaN`. -/
def mean (l : List FP) : FP := div (sum l) (num (l.length : ℚ))

/-- A value is finite iff it is an actual number. -/
def isFinite : FP → Bool
  | num _ => true
  | _ => false

/-- The rational payload of a finite value. -/
def toRat? : FP → Option ℚ
  | num q => some q
  | _ => none

/-- `np.sqrt` with the real square root on non-negative rationals
supplied as the parameter `f` (`sqrt` of a negative value is `NaN`). -/
def sqrtWith (f : ℚ → ℚ) : FP → FP
  | nan => nan
  | inf => inf
  | ninf => nan
  | num q => if q < 0 then nan else num (f q)

/-- `np.log10` with the real base-10 logarithm on positive rationals
supplied as the parameter `g` (`log10 0 = −∞`, negative gives `NaN`). -/
def log10With (g : ℚ → ℚ) : FP → FP
  | nan => nan
  | inf => inf
  | ninf => nan
  | num q => if q < 0 then nan else if q = 0 then ninf else num (g q)

/-- `exp` with the real exponential on rationals supplied as the
parameter `e` (`exp (−∞) = 0`, `exp ∞ = ∞`). -/
def expWith (e : ℚ → ℚ) : FP → FP
  | nan => nan
  | inf => inf
  | ninf => num 0
  | num q => num (e q)

/-- The value is a non-negative number or `+∞` (false for `NaN`/`−∞`). -/
def nonneg : FP → Bool
  | num q => decide (0 ≤ q)
  | inf => true
  | _ => false

/-- The value is a number in the closed interval `[0, 100]`. -/
def inPct : FP → Bool
  | num q => decide (0 ≤ q ∧ q ≤ 100)
  | _ => false

instance : Add FP := ⟨add⟩
instance : Sub FP := ⟨sub⟩
instance : Mul FP := ⟨mul⟩
instance : Div FP := ⟨div⟩
instance : Neg FP := ⟨neg⟩

@[simp] theorem add_def (a b : FP) : a + b = add a b := rfl
@[simp] theorem sub_def (a b : FP) : a - b = sub a b := rfl
@[simp] theorem mul_def (a b : FP) : a * b = mul a b := rfl
@[simp] theorem div_def (a b : FP) : a / b = div a b := rfl
@[simp] theorem neg_def (a : FP) : -a = neg a := rfl

@[simp] theorem add_num (a b : ℚ) : add (num a) (num b) = num (a + b) := rfl
@[simp] theorem neg_num (a : ℚ) : neg (num a) = num (-a) := rfl
@[simp] theorem sub_num (a b : ℚ) : sub (num a) (num b) = num (a - b) := by
  simp [sub, sub_eq_add_neg]
@[simp] theorem mul_num (a b : ℚ) : mul (num a) (num b) = num (a * b) := rfl

theorem div_num_of_ne {b : ℚ} (a : ℚ) (h : b ≠ 0) :
    div (num a) (num b) = num (a / b) := by
  simp [div, h]

theorem sum_map_num {α : Type} (f : α → ℚ) (l : List α) :
    sum (l.map fun x => num (f x)) = num ((l.map f).sum) := by
  have key : ∀ (l : List α) (q : ℚ),
      (l.map fun x => num (f x)).foldl add (num q) = num (q + (l.map f).sum) := by
    intro l
    induction l with
    | nil => intro q; simp
    | cons x xs ih =>
        intro q
        simp [List.foldl_cons, ih, add_assoc]
  simpa using key l 0

theorem mean_map_num {α : Type} (f : α → ℚ) (l : List α) (h : l ≠ []) :
    mean (l.map fun x => num (f x)) = num ((l.map f).sum / (l.length : ℚ)) := by
  have hlen : ((l.length : ℚ)) ≠ 0 :=
    Nat.cast_ne_zero.mpr (List.length_pos.mpr h).ne'
  simp [mean, sum_map_num, div_num_of_ne _ hlen]

end FP

/-- One price level of the order book: a `[price, qty]` pair as produced
by `WebSocketClient._process_orderbook`'s float coercion. -/
structure Level where
  price : ℚ
  qty : ℚ
deriving DecidableEq, Repr

/-- The order-book argument passed to every model's `calculate`:
the `asks`/`bids` lists of the processed message. -/
structure Book where
  asks : List Level
  bids : List Level
deriving DecidableEq, Repr

/-- A wire-format scalar field: either it coerces (to `float` /
`datetime.fromisoformat`) with the given value, or the coercion raises. -/
inductive Wire where
  | good (q : ℚ)
  | bad
deriving DecidableEq, Repr

/-- One inbound JSON frame as seen by `_process_orderbook`: each required
field is present (`some`) or missing (`none`); scalar payloads may fail
coercion (`Wire.bad`). -/
structure RawFrame where
  timestamp : Option Wire
  exchange : Option String
  symbol : Option String
  asks : Option (List (Wire × Wire))
  bids : Option (List (Wire × Wire))
deriving DecidableEq, Repr

/-- The validated snapshot produced by `_process_orderbook` and passed to
every registered callback. -/
structure Snapshot where
  timestamp : ℚ
  exchange : String
  symbol : String
  asks : List Level
  bids : List Level
deriving DecidableEq, Repr

namespace WebSocketClient

/-- Coerce one `[price, qty]` wire pair to floats; raises if either
`float(...)` call raises. -/
def coercePair : Wire × Wire → Except String Level
  | (Wire.good p, Wire.good q) => Except.ok ⟨p, q⟩
  | _ => Except.error "could not convert string to float"

/-- Coerce a whole side of the book, left to right, propagating the
first coercion failure (the list comprehension in the source). -/
def coerceLevels : List (Wire × Wire) → Except String (List Level)
  | [] => Except.ok []
  | p :: rest => do
      let l ← coercePair p
      let ls ← coerceLevels rest
      Except.ok (l :: ls)

/-- `WebSocketClient._process_orderbook`: check the five required fields,
parse the timestamp, coerce prices and quantities; any failure raises
(and is re-raised to the receive loop after logging). -/
def processOrderbook (f : RawFrame) : Except String Snapshot := do
  let some ts := f.timestamp | Except.error "Missing required field: timestamp"
  let some ex := f.exchange | Except.error "Missing required field: exchange"
  let some sy := f.symbol | Except.error "Missing required field: symbol"
  let some asksW := f.asks | Except.error "Missing required field: asks"
  let some bidsW := f.bids | Except.error "Missing required field: bids"
  let Wire.good t := ts | Except.error "Invalid isoformat string"
  let asks ← coerceLevels asksW
  let bids ← coerceLevels bidsW
  Except.ok ⟨t, ex, sy, asks, bids⟩

/-- Subscriber callbacks are identified by registration order; `cbFails`
says whether a given callback raises on a given snapshot.  Dispatch loops
over the registered callbacks in order and awaits each; the first
exception aborts the `for` loop (the remaining callbacks are not called)
and propagates to the receive loop's `except` handler.
Returns the invocation log `(callback id, snapshot)` and whether an
exception escaped the dispatch loop. -/
def dispatchTo (cbFails : ℕ → Snapshot → Bool) :
    List ℕ → Snapshot → List (ℕ × Snapshot) × Bool
  | [], _ => ([], false)
  | c :: rest, s =>
      if cbFails c s then ([(c, s)], true)
      else
        let r := dispatchTo cbFails rest s
        ((c, s) :: r.1, r.2)

/-- One transport event seen by the receive loop: an inbound text frame,
or the connection closing. -/
inductive Event where
  | msg (f : RawFrame)
  | connClosed
deriving DecidableEq, Repr

/-- Observable outcome of running the receive loop over a finite event
trace: the invocation log of callbacks, how many times the reconnect
path was entered, and how many exceptions were caught and logged by the
loop's generic handler. -/
structure LoopResult where
  dispatches : List (ℕ × Snapshot)
  reconnects : ℕ
  errorsLogged : ℕ
deriving DecidableEq, Repr

/-- One iteration of `WebSocketClient._process_messages` on one event:
a closed connection enters `_reconnect`; a frame is parsed/validated, a
failure is logged and the message dropped, a validated snapshot is
dispatched to the callbacks (a callback exception is caught and logged).
In every case the `while self.running` loop continues. -/
def stepEvent (cbs : List ℕ) (cbFails : ℕ → Snapshot → Bool) :
    Event → List (ℕ × Snapshot) × ℕ × ℕ
  | Event.connClosed => ([], 1, 0)
  | Event.msg f =>
      match processOrderbook f with
      | Except.error _ => ([], 0, 1)
      | Except.ok s =>
          let r := dispatchTo cbFails cbs s
          (r.1, 0, if r.2 then 1 else 0)

/-- `WebSocketClient._process_messages` over a finite trace of events
(the window during which `running` stays true): every event is handled,
exceptions never terminate the loop. -/
def processMessages (cbs : List ℕ) (cbFails : ℕ → Snapshot → Bool) :
    List Event → LoopResult
  | [] => ⟨[], 0, 0⟩
  | e :: rest =>
      let r := stepEvent cbs cbFails e
      let t := processMessages cbs cbFails rest
      ⟨r.1 ++ t.dispatches, r.2.1 + t.reconnects, r.2.2 + t.errorsLogged⟩

/-- `retry_delay = min(retry_delay * 2, 30)` from `_reconnect`. -/
def nextDelay (d : ℕ) : ℕ := min (d * 2) 30

/-- The body of `WebSocketClient._reconnect`: starting from the current
`retry_delay` and attempt index, sleep `delay`, try to connect; return on
success, double-and-cap the delay on failure.  `fuel` is the number of
loop iterations for which `running` remains true; `succeeds i` says
whether the `i`-th connection attempt of this episode succeeds.
Returns the list of delays slept and whether the episode reconnected. -/
def reconnectRun (succeeds : ℕ → Bool) : ℕ → ℕ → ℕ → List ℕ × Bool
  | 0, _, _ => ([], false)
  | fuel + 1, delay, attempt =>
      if succeeds attempt then ([delay], true)
      else
        let r := reconnectRun succeeds fuel (nextDelay delay) (attempt + 1)
        (delay :: r.1, r.2)

/-- `WebSocketClient._reconnect`: every reconnection episode starts a
fresh local `retry_delay = 1`. -/
def reconnect (succeeds : ℕ → Bool) (fuel : ℕ) : List ℕ × Bool :=
  reconnectRun succeeds fuel 1 0

/-- The closed-form backoff delay before the `(n+1)`-th attempt. -/
def theoDelay (n : ℕ) : ℕ := min (2 ^ n) 30

end WebSocketClient

namespace Sklearn

/-- scikit-learn input validation (`check_array`): `transform`, `predict`
and `predict_proba` all raise `ValueError` on `NaN`/`inf` entries. -/
def checkFinite (xs : List FP) : Bool := xs.all FP.isFinite

/-- `StandardScaler.transform` on one feature row: validates the input,
checks the feature count against the fitted parameters, then applies
`(x − mean) / scale` componentwise. -/
def transform (means scales : List ℚ) (feats : List FP) :
    Except String (List FP) :=
  if !checkFinite feats then Except.error "Input contains NaN"
  else if feats.length ≠ means.length ∨ feats.length ≠ scales.length then
    Except.error "X has a different number of features than during fitting"
  else
    Except.ok ((feats.zip (means.zip scales)).map
      fun p => (p.1 - FP.num p.2.1) / FP.num p.2.2)

/-- Dot product of a feature row with fitted coefficients. -/
def dot (ws : List ℚ) (xs : List FP) : FP :=
  FP.sum ((xs.zip ws).map fun p => p.1 * FP.num p.2)

/-- `LinearRegression.predict` on one row: validates the input and the
feature count, then returns `coef · x + intercept`. -/
def predictLin (ws : List ℚ) (b : ℚ) (xs : List FP) : Except String FP :=
  if !checkFinite xs then Except.error "Input contains NaN"
  else if xs.length ≠ ws.length then
    Except.error "X has a different number of features than during fitting"
  else Except.ok (dot ws xs + FP.num b)

/-- Binary `LogisticRegression.predict_proba` on one row: validates the
input and feature count, computes the decision value `z = coef · x + b`
and returns `(1 − σ(z), σ(z))` with `σ(z) = 1 / (1 + exp (−z))`; the real
exponential is supplied as the parameter `e`. -/
def predictProbaBinary (e : ℚ → ℚ) (ws : List ℚ) (b : ℚ) (xs : List FP) :
    Except String (FP × FP) :=
  if !checkFinite xs then Except.error "Input contains NaN"
  else if xs.length ≠ ws.length then
    Except.error "X has a different number of features than during fitting"
  else
    let z := dot ws xs + FP.num b
    let p := FP.num 1 / (FP.num 1 + FP.expWith e (FP.neg z))
    Except.ok (FP.num 1 - p, p)

/-- One row of finite floats as exact rationals; raises (as
`check_array` does inside `fit`/`fit_transform`) on a non-finite entry. -/
def rowToRats : List FP → Except String (List ℚ)
  | [] => Except.ok []
  | x :: rest =>
      match x.toRat? with
      | none => Except.error "Input contains NaN"
      | some q =>
          match rowToRats rest with
          | Except.error e => Except.error e
          | Except.ok qs => Except.ok (q :: qs)

/-- All rows of finite floats as exact rationals. -/
def toMatrix : List (List FP) → Except String (List (List ℚ))
  | [] => Except.ok []
  | r :: rest =>
      match rowToRats r with
      | Except.error e => Except.error e
      | Except.ok qs =>
          match toMatrix rest with
          | Except.error e => Except.error e
          | Except.ok m => Except.ok (qs :: m)

/-- Standardize fitted rows with given scaler parameters (pure ℚ). -/
def scaleRows (means scales : List ℚ) (rows : List (List ℚ)) :
    List (List ℚ) :=
  rows.map fun r => (r.zip (means.zip scales)).map
    fun p => (p.1 - p.2.1) / p.2.2

end Sklearn

namespace SlippageModel

/-- `SlippageModel`'s mutable state: the `is_trained` flag, the fitted
`StandardScaler` parameters and the fitted linear coefficients. -/
structure State where
  is_trained : Bool
  means : List ℚ
  scales : List ℚ
  weights : List ℚ
  intercept : ℚ
deriving DecidableEq, Repr

/-- The state produced by `SlippageModel.__init__`: untrained, unfitted. -/
def initState : State := ⟨false, [], [], [], 0⟩

/-- `SlippageModel._extract_features`: the five-feature vector
`[spread_pct, |depth imbalance|, price_levels, quantity_ratio,
log10 quantity]`; raises `IndexError` on an empty side, while the
divisions follow numpy semantics (no exception, `inf`/`NaN` results). -/
def extractFeatures (g : ℚ → ℚ) (b : Book) (q : ℚ) :
    Except String (List FP) :=
  match b.asks, b.bids with
  | a0 :: _, b0 :: _ =>
      let midPrice := (FP.num a0.price + FP.num b0.price) / FP.num 2
      let spread := FP.num a0.price - FP.num b0.price
      let spreadPct := spread / midPrice * FP.num 100
      let askDepth := FP.sum (b.asks.map fun l => FP.num l.qty * FP.num l.price)
      let bidDepth := FP.sum (b.bids.map fun l => FP.num l.qty * FP.num l.price)
      let totalDepth := askDepth + bidDepth
      let depthImbalance := FP.fabs (askDepth - bidDepth) / totalDepth
      let priceLevels := FP.num (b.asks.length : ℚ)
      let quantityRatio := FP.num q / totalDepth
      Except.ok [spreadPct, depthImbalance, priceLevels, quantityRatio,
                 FP.log10With g (FP.num q)]
  | _, _ => Except.error "index 0 is out of bounds"

/-- `SlippageModel._calculate_heuristic_slippage`:
`0.5 × spread_pct + 0.5 × (quantity / total_depth × 100)` with numpy
division semantics; raises `IndexError` on an empty side. -/
def calculateHeuristicSlippage (b : Book) (q : ℚ) : Except String FP :=
  match b.asks, b.bids with
  | a0 :: _, b0 :: _ =>
      let midPrice := (FP.num a0.price + FP.num b0.price) / FP.num 2
      let spread := FP.num a0.price - FP.num b0.price
      let spreadPct := spread / midPrice * FP.num 100
      let totalDepth :=
        FP.sum (b.asks.map fun l => FP.num l.qty * FP.num l.price) +
        FP.sum (b.bids.map fun l => FP.num l.qty * FP.num l.price)
      let quantityImpact := FP.num q / totalDepth * FP.num 100
      Except.ok (spreadPct * FP.num (1/2) + quantityImpact * FP.num (1/2))
  | _, _ => Except.error "index 0 is out of bounds"

/-- The `try` body of `SlippageModel.calculate`: extract features, then
either the untrained heuristic or scale-and-predict clamped to `≥ 0`
(Python's `max(0.0, ·)`). -/
def calcCore (g : ℚ → ℚ) (st : State) (b : Book) (q : ℚ) :
    Except String FP :=
  match extractFeatures g b q with
  | Except.error e => Except.error e
  | Except.ok feats =>
      if st.is_trained = false then
        calculateHeuristicSlippage b q
      else
        match Sklearn.transform st.means st.scales feats with
        | Except.error e => Except.error e
        | Except.ok scaled =>
            match Sklearn.predictLin st.weights st.intercept scaled with
            | Except.error e => Except.error e
            | Except.ok pred => Except.ok (FP.pyMax (FP.num 0) pred)

/-- `SlippageModel.calculate`: any exception is caught, logged and
replaced by the safe default `0.0`. -/
def calculate (g : ℚ → ℚ) (st : State) (b : Book) (q : ℚ) : FP :=
  match calcCore g st b q with
  | Except.ok v => v
  | Except.error _ => FP.num 0

/-- One training sample for `SlippageModel.train`. -/
structure Sample where
  orderbook : Book
  quantity : ℚ
  actual_slippage : ℚ
deriving DecidableEq, Repr

/-- The feature-extraction loop of `SlippageModel.train`: extract the
features of every sample in order, propagating the first exception
(e.g. `IndexError` on an empty book). -/
def extractAll (g : ℚ → ℚ) : List Sample → Except String (List (List FP))
  | [] => Except.ok []
  | s :: rest =>
      match extractFeatures g s.orderbook s.quantity with
      | Except.error e => Except.error e
      | Except.ok f =>
          match extractAll g rest with
          | Except.error e => Except.error e
          | Except.ok fs => Except.ok (f :: fs)

/-- The `try` body of `SlippageModel.train` on nonempty data: extract
features, validate finiteness (`fit_transform`'s `check_array`), fit
scaler and regression.  The numerical fitting routines
(`StandardScaler.fit`, least squares) always succeed on validated
finite input and are supplied as the parameters `fitScaler`/`fitLin`;
their output values are never inspected by any claim. -/
def trainCore (g : ℚ → ℚ)
    (fitScaler : List (List ℚ) → List ℚ × List ℚ)
    (fitLin : List (List ℚ) → List ℚ → List ℚ × ℚ)
    (data : List Sample) : Except String State :=
  match extractAll g data with
  | Except.error e => Except.error e
  | Except.ok feats =>
      match Sklearn.toMatrix feats with
      | Except.error e => Except.error e
      | Except.ok Xq =>
          let y := data.map (·.actual_slippage)
          let ms := fitScaler Xq
          let fit := fitLin (Sklearn.scaleRows ms.1 ms.2 Xq) y
          Except.ok ⟨true, ms.1, ms.2, fit.1, fit.2⟩

/-- `SlippageModel.train`: empty input returns early leaving the state
untouched; any exception is caught and only `is_trained` is reset. -/
def train (g : ℚ → ℚ)
    (fitScaler : List (List ℚ) → List ℚ × List ℚ)
    (fitLin : List (List ℚ) → List ℚ → List ℚ × ℚ)
    (st : State) (data : List Sample) : State :=
  if data = [] then st
  else
    match trainCore g fitScaler fitLin data with
    | Except.ok st' => st'
    | Except.error _ => { st with is_trained := false }

end SlippageModel

namespace MakerTakerModel

/-- `MakerTakerModel`'s mutable state: the `is_trained` flag, the fitted
scaler parameters and the fitted logistic coefficients. -/
structure State where
  is_trained : Bool
  means : List ℚ
  scales : List ℚ
  weights : List ℚ
  intercept : ℚ
deriving DecidableEq, Repr

/-- The state produced by `MakerTakerModel.__init__`. -/
def initState : State := ⟨false, [], [], [], 0⟩

/-- `MakerTakerModel._extract_features`: the six-feature vector
`[spread_pct, signed depth imbalance, price_levels, quantity_ratio,
pressure, log10 quantity]`; raises `IndexError` on an empty side. -/
def extractFeatures (g : ℚ → ℚ) (b : Book) (q : ℚ) :
    Except String (List FP) :=
  match b.asks, b.bids with
  | a0 :: _, b0 :: _ =>
      let midPrice := (FP.num a0.price + FP.num b0.price) / FP.num 2
      let spread := FP.num a0.price - FP.num b0.price
      let spreadPct := spread / midPrice * FP.num 100
      let askDepth := FP.sum (b.asks.map fun l => FP.num l.qty * FP.num l.price)
      let bidDepth := FP.sum (b.bids.map fun l => FP.num l.qty * FP.num l.price)
      let totalDepth := askDepth + bidDepth
      let depthImbalance := (askDepth - bidDepth) / totalDepth
      let priceLevels := FP.num (b.asks.length : ℚ)
      let quantityRatio := FP.num q / totalDepth
      let pressure := (askDepth - bidDepth) / (askDepth + bidDepth)
      Except.ok [spreadPct, depthImbalance, priceLevels, quantityRatio,
                 pressure, FP.log10With g (FP.num q)]
  | _, _ => Except.error "index 0 is out of bounds"

/-- `MakerTakerModel._calculate_heuristic_proportions`:
`maker = max(0, min(100, 50 + spread_pct×2 − quantity_ratio×100))`,
`taker = 100 − maker`; raises `IndexError` on an empty side. -/
def calculateHeuristicProportions (b : Book) (q : ℚ) :
    Except String (FP × FP) :=
  match b.asks, b.bids with
  | a0 :: _, b0 :: _ =>
      let spread := FP.num a0.price - FP.num b0.price
      let midPrice := (FP.num a0.price + FP.num b0.price) / FP.num 2
      let spreadPct := spread / midPrice * FP.num 100
      let askDepth := FP.sum (b.asks.map fun l => FP.num l.qty * FP.num l.price)
      let bidDepth := FP.sum (b.bids.map fun l => FP.num l.qty * FP.num l.price)
      let totalDepth := askDepth + bidDepth
      let quantityRatio := FP.num q / totalDepth
      let makerProb := FP.num 50 + spreadPct * FP.num 2 - quantityRatio * FP.num 100
      let makerClamped := FP.pyMax (FP.num 0) (FP.pyMin (FP.num 100) makerProb)
      Except.ok (makerClamped, FP.num 100 - makerClamped)
  | _, _ => Except.error "index 0 is out of bounds"

/-- The `try` body of `MakerTakerModel.calculate`: extract features,
then either the untrained heuristic or scale-and-`predict_proba`
rescaled to percentages. -/
def calcCore (g eFn : ℚ → ℚ) (st : State) (b : Book) (q : ℚ) :
    Except String (FP × FP) :=
  match extractFeatures g b q with
  | Except.error e => Except.error e
  | Except.ok feats =>
      if st.is_trained = false then
        calculateHeuristicProportions b q
      else
        match Sklearn.transform st.means st.scales feats with
        | Except.error e => Except.error e
        | Except.ok scaled =>
            match Sklearn.predictProbaBinary eFn st.weights st.intercept scaled with
            | Except.error e => Except.error e
            | Except.ok probs =>
                Except.ok (probs.1 * FP.num 100, probs.2 * FP.num 100)

/-- `MakerTakerModel.calculate`: any exception is caught, logged and
replaced by the neutral default `{maker: 50, taker: 50}`. -/
def calculate (g eFn : ℚ → ℚ) (st : State) (b : Book) (q : ℚ) : FP × FP :=
  match calcCore g eFn st b q with
  | Except.ok v => v
  | Except.error _ => (FP.num 50, FP.num 50)

/-- One training sample for `MakerTakerModel.train` (`execution_type`
is the class label, 0 for maker and 1 for taker). -/
structure Sample where
  orderbook : Book
  quantity : ℚ
  execution_type : ℚ
deriving DecidableEq, Repr

/-- The feature-extraction loop of `MakerTakerModel.train`: extract the
features of every sample in order, propagating the first exception. -/
def extractAll (g : ℚ → ℚ) : List Sample → Except String (List (List FP))
  | [] => Except.ok []
  | s :: rest =>
      match extractFeatures g s.orderbook s.quantity with
      | Except.error e => Except.error e
      | Except.ok f =>
          match extractAll g rest with
          | Except.error e => Except.error e
          | Except.ok fs => Except.ok (f :: fs)

/-- The fitting part of `MakerTakerModel.train`'s `try` body: validate
finiteness, fit scaler, then fit the logistic classifier — which
additionally raises `ValueError` when the labels contain fewer than two
distinct classes.  The numerical routines are supplied as the
parameters `fitScaler`/`fitLog`. -/
def trainCore (g : ℚ → ℚ)
    (fitScaler : List (List ℚ) → List ℚ × List ℚ)
    (fitLog : List (List ℚ) → List ℚ → List ℚ × ℚ)
    (data : List Sample) : Except String State :=
  match extractAll g data with
  | Except.error e => Except.error e
  | Except.ok feats =>
      match Sklearn.toMatrix feats with
      | Except.error e => Except.error e
      | Except.ok Xq =>
          let y := data.map (·.execution_type)
          if y.dedup.length < 2 then
            Except.error "This solver needs samples of at least 2 classes"
          else
            let ms := fitScaler Xq
            let fit := fitLog (Sklearn.scaleRows ms.1 ms.2 Xq) y
            Except.ok ⟨true, ms.1, ms.2, fit.1, fit.2⟩

/-- `MakerTakerModel.train`: empty input returns early leaving the
state untouched; any exception is caught and only `is_trained` reset. -/
def train (g : ℚ → ℚ)
    (fitScaler : List (List ℚ) → List ℚ × List ℚ)
    (fitLog : List (List ℚ) → List ℚ → List ℚ × ℚ)
    (st : State) (data : List Sample) : State :=
  if data = [] then st
  else
    match trainCore g fitScaler fitLog data with
    | Except.ok st' => st'
    | Except.error _ => { st with is_trained := false }

end MakerTakerModel

namespace MarketImpactModel

/-- numpy broadcasting of the element-wise subtraction
`asks[:,0] - bids[:,0]`: defined when the lengths agree or either side
has exactly one element; otherwise numpy raises a broadcast error. -/
def broadcastSub (xs ys : List ℚ) : Except String (List FP) :=
  if xs.length = ys.length then
    Except.ok (List.zipWith (fun a c => FP.num a - FP.num c) xs ys)
  else
    match xs, ys with
    | xs', [y] => Except.ok (xs'.map fun a => FP.num a - FP.num y)
    | [x], ys' => Except.ok (ys'.map fun c => FP.num x - FP.num c)
    | _, _ => Except.error "operands could not be broadcast together"

/-- `MarketImpactModel._calculate_temporary_impact`:
`0.1 × mean(asks[:,0] − bids[:,0]) / mean(concat(asks[:,1], bids[:,1]))`
with numpy broadcasting and division semantics. -/
def calculateTemporaryImpact (asks bids : List Level) (_q : ℚ) :
    Except String FP :=
  match broadcastSub (asks.map (·.price)) (bids.map (·.price)) with
  | Except.error e => Except.error e
  | Except.ok diffs =>
      let spread := FP.mean diffs
      let avgDepth := FP.mean ((asks.map (·.qty) ++ bids.map (·.qty)).map FP.num)
      Except.ok (FP.num (1/10) * (spread / avgDepth))

/-- `MarketImpactModel._calculate_permanent_impact`:
`0.05 / sqrt(price_levels)`. -/
def calculatePermanentImpact (f : ℚ → ℚ) (asks _bids : List Level)
    (_q : ℚ) : FP :=
  FP.num (1/20) / FP.sqrtWith f (FP.num (asks.length : ℚ))

/-- `MarketImpactModel._calculate_optimal_time`:
`300 × (1 + log10(quantity)/3 + volatility×2)`. -/
def calculateOptimalTime (g : ℚ → ℚ) (q vol : ℚ) : FP :=
  FP.num 300 *
    (FP.num 1 + FP.log10With g (FP.num q) / FP.num 3 + FP.num vol * FP.num 2)

/-- The `try` body of `MarketImpactModel.calculate`: the Almgren-Chriss
style combination `eta×(Q/T) + gamma×Q + lambda×sigma×sqrt(T)` converted
to a percentage of the quantity. -/
def calcCore (f g : ℚ → ℚ) (b : Book) (q vol : ℚ) : Except String FP :=
  match b.asks, b.bids with
  | a0 :: _, b0 :: _ =>
      let _midPrice := (FP.num a0.price + FP.num b0.price) / FP.num 2
      match calculateTemporaryImpact b.asks b.bids q with
      | Except.error e => Except.error e
      | Except.ok eta =>
          let gamma := calculatePermanentImpact f b.asks b.bids q
          let lambdaParam := FP.num (1/10) * (FP.num 1 + FP.num vol)
          let T := calculateOptimalTime g q vol
          let temporaryImpact := eta * (FP.num q / T)
          let permanentImpact := gamma * FP.num q
          let riskTerm := lambdaParam * FP.num vol * FP.sqrtWith f T
          let totalImpact := temporaryImpact + permanentImpact + riskTerm
          Except.ok (totalImpact / FP.num q * FP.num 100)
  | _, _ => Except.error "index 0 is out of bounds"

/-- `MarketImpactModel.calculate`: any exception is caught, logged and
replaced by the safe default `0.0`. -/
def calculate (f g : ℚ → ℚ) (b : Book) (q vol : ℚ) : FP :=
  match calcCore f g b q vol with
  | Except.ok v => v
  | Except.error _ => FP.num 0

/-- Arithmetic mean of a rational list. -/
def listMean (l : List ℚ) : ℚ := l.sum / (l.length : ℚ)

/-- The market-impact formula exactly as the specification words it
(§4.3), in exact rational arithmetic, with the real `sqrt`/`log10`
supplied as `f`/`g`: `eta = 0.1 × mean(ask_price−bid_price across
levels)/mean(depth across levels)`, `gamma = 0.05/sqrt(price_levels)`,
`lambda = 0.1×(1+volatility)`, `T = 300×(1+log10(quantity)/3+
volatility×2)`, `impact = eta×quantity/T + gamma×quantity +
lambda×volatility×sqrt(T)`, result `= impact/quantity × 100`. -/
def calculateSpec (f g : ℚ → ℚ) (b : Book) (q vol : ℚ) : ℚ :=
  let eta := (1/10) *
    (listMean (List.zipWith (fun a c => a - c)
        (b.asks.map (·.price)) (b.bids.map (·.price))) /
      listMean ((b.asks ++ b.bids).map (·.qty)))
  let gamma := (1/20) / f ((b.asks.length : ℚ))
  let lam := (1/10) * (1 + vol)
  let T := 300 * (1 + g q / 3 + vol * 2)
  let impact := eta * q / T + gamma * q + lam * vol * f T
  impact / q * 100

end MarketImpactModel

/-- The fee tiers offered by the UI combo box. -/
inductive FeeTier where
  | tier1
  | tier2
  | tier3
deriving DecidableEq, Repr

namespace MainWindow

/-- The static fee-tier table from `MainWindow._calculate_fees`
(`{"Tier 1": 0.001, "Tier 2": 0.0008, "Tier 3": 0.0006}`). -/
def feeTiers : FeeTier → ℚ
  | FeeTier.tier1 => 1/1000
  | FeeTier.tier2 => 8/10000
  | FeeTier.tier3 => 6/10000

/-- `MainWindow._calculate_fees`: `quantity × fee_rate(tier)`. -/
def calculateFees (q : ℚ) (t : FeeTier) : ℚ := q * feeTiers t

/-- The result record displayed by `MainWindow._on_orderbook_update`. -/
structure UpdateResult where
  slippage : FP
  fees : ℚ
  impact : FP
  net_cost : FP
  maker : FP
  taker : FP
deriving DecidableEq, Repr

/-- `MainWindow._on_orderbook_update`: read the spin-box quantity and
volatility (the UI divides the percentage by 100), run the three models
on the current snapshot, look up fees, and combine
`net_cost = (slippage + impact) × quantity / 100 + fees`. -/
def onOrderbookUpdate (f g eFn : ℚ → ℚ)
    (slipSt : SlippageModel.State) (mtSt : MakerTakerModel.State)
    (b : Book) (quantity volPct : ℚ) (t : FeeTier) : UpdateResult :=
  let volatility := volPct / 100
  let slippage := SlippageModel.calculate g slipSt b quantity
  let fees := calculateFees quantity t
  let impact := MarketImpactModel.calculate f g b quantity volatility
  let net_cost := (slippage + impact) * FP.num quantity / FP.num 100 + FP.num fees
  let mt := MakerTakerModel.calculate g eFn mtSt b quantity
  ⟨slippage, fees, impact, net_cost, mt.1, mt.2⟩

end MainWindow

/-- A concrete validated snapshot used in concrete instantiations. -/
def exSnapshot : Snapshot :=
  ⟨0, "OKX", "BTC-USDT-SWAP", [⟨101, 2⟩], [⟨100, 3⟩]⟩

/-- A concrete well-formed inbound frame that validates to `exSnapshot`. -/
def exValidFrame : RawFrame :=
  ⟨some (Wire.good 0), some "OKX", some "BTC-USDT-SWAP",
   some [(Wire.good 101, Wire.good 2)], some [(Wire.good 100, Wire.good 3)]⟩

/-- A concrete malformed inbound frame (missing `timestamp`). -/
def exBadFrame : RawFrame :=
  ⟨none, some "OKX", some "BTC-USDT-SWAP",
   some [(Wire.good 101, Wire.good 2)], some [(Wire.good 100, Wire.good 3)]⟩

/-!
## Theorems
-/

namespace WebSocketClient

theorem dispatchTo_no_fail (cbFails : ℕ → Snapshot → Bool)
    (h : ∀ c s', cbFails c s' = false) (cbs : List ℕ) (s : Snapshot) :
    dispatchTo cbFails cbs s = (cbs.map fun c => (c, s), false) := by
  induction cbs with
  | nil => simp [dispatchTo]
  | cons c rest ih => simp [dispatchTo, h, ih]

theorem nextDelay_theoDelay (n : ℕ) :
    nextDelay (theoDelay n) = theoDelay (n + 1) := by
  unfold nextDelay theoDelay
  rcases le_or_lt (2 ^ n) 30 with h | h
  · rw [min_eq_left h, pow_succ]
  · rw [min_eq_right h.le]
    have h2 : 30 < 2 ^ (n + 1) := by
      calc (30 : ℕ) < 2 ^ n := h
        _ ≤ 2 ^ (n + 1) := Nat.pow_le_pow_right (by omega) (by omega)
    omega

theorem theoDelay_range_shift (k N : ℕ) :
    (List.range (N + 2)).map (fun i => theoDelay (k + i)) =
      theoDelay k :: (List.range (N + 1)).map (fun i => theoDelay (k + 1 + i)) := by
  rw [List.range_succ_eq_map, List.map_cons, List.map_map]
  refine congrArg₂ List.cons (by simp) (List.map_congr_left fun i _ => ?_)
  simp only [Function.comp_apply]
  congr 1
  omega

theorem reconnectRun_spec (succeeds : ℕ → Bool) :
    ∀ (N k fuel : ℕ), (∀ i, i < N → succeeds (k + i) = false) →
      succeeds (k + N) = true → N + 1 ≤ fuel →
      reconnectRun succeeds fuel (theoDelay k) k =
        ((List.range (N + 1)).map (fun i => theoDelay (k + i)), true) := by
  intro N
  induction N with
  | zero =>
      intro k fuel _ h2 h3
      obtain ⟨m, rfl⟩ : ∃ m, fuel = m + 1 := ⟨fuel - 1, by omega⟩
      have h2' : succeeds k = true := by simpa using h2
      simp [reconnectRun, h2', List.range_succ]
  | succ N ih =>
      intro k fuel h1 h2 h3
      obtain ⟨m, rfl⟩ : ∃ m, fuel = m + 1 := ⟨fuel - 1, by omega⟩
      have h0 : succeeds k = false := by simpa using h1 0 (Nat.succ_pos N)
      have ihm := ih (k + 1) m
        (fun i hi => by
          have := h1 (i + 1) (by omega)
          simpa [show k + (i + 1) = (k + 1) + i by omega] using this)
        (by simpa [show k + (N + 1) = (k + 1) + N by omega] using h2)
        (by omega)
      simp only [reconnectRun, h0, Bool.false_eq_true, if_false,
        nextDelay_theoDelay, ihm]
      rw [show N + 1 + 1 = N + 2 from rfl, theoDelay_range_shift]

theorem reconnectRun_all_fail (g : ℕ → Bool) (hg : ∀ i, g i = false) :
    ∀ (fuel d k : ℕ), (reconnectRun g fuel d k).1.length = fuel ∧
      (reconnectRun g fuel d k).2 = false := by
  intro fuel
  induction fuel with
  | zero => intro d k; simp [reconnectRun]
  | succ fuel ih =>
      intro d k
      simp [reconnectRun, hg, (ih (nextDelay d) (k + 1)).1,
        (ih (nextDelay d) (k + 1)).2]

end WebSocketClient

/-- C1 (corrected): when a subscriber callback raises during dispatch,
the exception is caught by the receive loop's handler and logged, and
the loop continues with subsequent events — but the `for` loop over
callbacks is aborted, so the remaining registered subscribers are NOT
invoked with that snapshot. -/
theorem C1_subscriber_error_isolation (c : ℕ) (rest : List ℕ)
    (cbFails : ℕ → Snapshot → Bool) (f : RawFrame) (s : Snapshot)
    (es : List WebSocketClient.Event)
    (hok : WebSocketClient.processOrderbook f = Except.ok s)
    (hf : cbFails c s = true) :
    WebSocketClient.processMessages (c :: rest) cbFails
        (WebSocketClient.Event.msg f :: es) =
      ⟨(c, s) :: (WebSocketClient.processMessages (c :: rest) cbFails es).dispatches,
       (WebSocketClient.processMessages (c :: rest) cbFails es).reconnects,
       1 + (WebSocketClient.processMessages (c :: rest) cbFails es).errorsLogged⟩ := by
  simp [WebSocketClient.processMessages, WebSocketClient.stepEvent, hok,
    WebSocketClient.dispatchTo, hf]

/-- C1 witness: two registered subscribers, the first raises on the
snapshot of a valid frame: only the first is invoked, the error is
logged, the loop does not reconnect or terminate. -/
theorem C1_subscriber_error_isolation_witness :
    WebSocketClient.processMessages [0, 1] (fun c _ => c == 0)
        [WebSocketClient.Event.msg exValidFrame] =
      ⟨[(0, exSnapshot)], 0, 1⟩ := by
  have h := C1_subscriber_error_isolation 0 [1] (fun c _ => c == 0)
    exValidFrame exSnapshot [] (by rfl) (by rfl)
  rw [h]; rfl

/-- C1 counterexample: the claim as stated — the remaining registered
subscribers are still invoked with the same snapshot — is false: with
subscribers `[0, 1]` and subscriber 0 raising, the dispatch log of the
receive loop contains only subscriber 0; `(1, exSnapshot)` was never
dispatched. -/
theorem C1_counterexample :
    (WebSocketClient.processMessages [0, 1] (fun c _ => c == 0)
        [WebSocketClient.Event.msg exValidFrame]).dispatches = [(0, exSnapshot)] ∧
    (1, exSnapshot) ∉ (WebSocketClient.processMessages [0, 1] (fun c _ => c == 0)
        [WebSocketClient.Event.msg exValidFrame]).dispatches := by
  decide

/-- C3 (confirmed): in one reconnection episode in which the first `N`
attempts fail and attempt `N + 1` succeeds (with `running` true
throughout), the delays slept are exactly `min(2^(i−1), 30)` before the
`i`-th attempt; the closed form of the doubling-and-capping recurrence
is `min(2^n, 30)`; the episode starts at 1 time-unit (so a fresh episode
after a successful reconnect starts at 1 again, since `_reconnect`
re-initialises `retry_delay = 1`); and while every attempt fails the
loop keeps retrying for as long as `running` holds. -/
theorem C3_reconnect_backoff (succeeds : ℕ → Bool) (N fuel : ℕ)
    (h1 : ∀ i, i < N → succeeds i = false)
    (h2 : succeeds N = true) (h3 : N + 1 ≤ fuel) :
    WebSocketClient.reconnect succeeds fuel =
      ((List.range (N + 1)).map WebSocketClient.theoDelay, true) ∧
    (∀ n, WebSocketClient.theoDelay n = min (2 ^ n) 30) ∧
    WebSocketClient.theoDelay 0 = 1 ∧
    (∀ (g : ℕ → Bool) (fuel' : ℕ), (∀ i, g i = false) →
      (WebSocketClient.reconnectRun g fuel' 1 0).1.length = fuel' ∧
      (WebSocketClient.reconnectRun g fuel' 1 0).2 = false) := by
  refine ⟨?_, fun n => rfl, rfl,
    fun g fuel' hg => WebSocketClient.reconnectRun_all_fail g hg fuel' 1 0⟩
  have h := WebSocketClient.reconnectRun_spec succeeds N 0 fuel
    (by simpa using h1) (by simpa using h2) h3
  simp only [Nat.zero_add] at h
  exact h

/-- C3 witness: attempts 1 and 2 fail, attempt 3 succeeds: the slept
delays are `[1, 2, 4]` and the episode reconnects. -/
theorem C3_reconnect_backoff_witness :
    WebSocketClient.reconnect (fun i => i == 2) 4 = ([1, 2, 4], true) := by
  have h := C3_reconnect_backoff (fun i => i == 2) 2 4
    (by decide) (by decide) (by decide)
  rw [h.1]; rfl

/-- C4 (confirmed): a frame that fails parsing/validation is logged and
dropped without reconnecting and the loop continues: processing one
malformed frame followed by one valid frame dispatches exactly one
snapshot to each registered subscriber (in registration order), with
zero reconnects and exactly the one drop logged. -/
theorem C4_malformed_frame_dropped (cbs : List ℕ)
    (cbFails : ℕ → Snapshot → Bool) (m v : RawFrame) (em : String)
    (s : Snapshot)
    (hm : WebSocketClient.processOrderbook m = Except.error em)
    (hv : WebSocketClient.processOrderbook v = Except.ok s)
    (hcb : ∀ c s', cbFails c s' = false) :
    WebSocketClient.processMessages cbs cbFails
        [WebSocketClient.Event.msg m, WebSocketClient.Event.msg v] =
      ⟨cbs.map (fun c => (c, s)), 0, 1⟩ := by
  simp [WebSocketClient.processMessages, WebSocketClient.stepEvent, hm, hv,
    WebSocketClient.dispatchTo_no_fail cbFails hcb]

/-- C4 witness: a frame missing `timestamp` followed by a valid frame,
with two registered subscribers that never raise: each subscriber is
invoked exactly once, with the snapshot of the valid frame. -/
theorem C4_malformed_frame_dropped_witness :
    WebSocketClient.processMessages [0, 1] (fun _ _ => false)
        [WebSocketClient.Event.msg exBadFrame,
         WebSocketClient.Event.msg exValidFrame] =
      ⟨[(0, exSnapshot), (1, exSnapshot)], 0, 1⟩ := by
  have h := C4_malformed_frame_dropped [0, 1] (fun _ _ => false)
    exBadFrame exValidFrame "Missing required field: timestamp" exSnapshot
    (by rfl) (by rfl) (fun _ _ => rfl)
  rw [h]; rfl

namespace FP

theorem nonneg_num (q : ℚ) : nonneg (num q) = decide (0 ≤ q) := rfl

theorem inPct_num (q : ℚ) : inPct (num q) = decide (0 ≤ q ∧ q ≤ 100) := rfl

theorem add_num_inf (a : ℚ) : add (num a) inf = inf := rfl

theorem mul_inf_num (b : ℚ) (h : 0 < b) : mul inf (num b) = inf := by
  simp [mul, h, h.ne']

theorem div_num_zero_pos (a : ℚ) (h : 0 < a) : div (num a) (num 0) = inf := by
  simp [div, h, h.ne']

theorem nonneg_pyMax_zero (x : FP) : nonneg (pyMax (num 0) x) = true := by
  cases x with
  | num q =>
      by_cases h : (0 : ℚ) < q
      · simp [pyMax, lt, nonneg, h, h.le]
      · simp [pyMax, lt, nonneg, h]
  | inf => rfl
  | ninf => rfl
  | nan => rfl

theorem clamp_mem (x : FP) :
    ∃ m : ℚ, pyMax (num 0) (pyMin (num 100) x) = num m ∧ 0 ≤ m ∧ m ≤ 100 := by
  cases x with
  | num q =>
      by_cases h1 : q < 100
      · by_cases h2 : (0 : ℚ) < q
        · exact ⟨q, by simp [pyMin, pyMax, lt, h1, h2], h2.le, h1.le⟩
        · exact ⟨0, by simp [pyMin, pyMax, lt, h1, h2], le_refl 0, by norm_num⟩
      · exact ⟨100, by simp [pyMin, pyMax, lt, h1], by norm_num, le_refl _⟩
  | inf => exact ⟨100, rfl, by norm_num, le_refl _⟩
  | ninf => exact ⟨0, rfl, le_refl 0, by norm_num⟩
  | nan => exact ⟨100, rfl, by norm_num, le_refl _⟩

end FP

theorem depth_sum (l : List Level) :
    FP.sum (l.map fun lv => FP.num (lv.qty * lv.price)) =
      FP.num ((l.map fun lv => lv.qty * lv.price).sum) :=
  FP.sum_map_num _ l

theorem depth_pos (l : List Level) (hl : l ≠ [])
    (h : ∀ lv ∈ l, 0 < lv.price ∧ 0 < lv.qty) :
    0 < ((l.map fun lv => lv.qty * lv.price).sum) := by
  refine List.sum_pos _ ?_ (by simpa using hl)
  intro x hx
  obtain ⟨lv, hlv, rfl⟩ := List.mem_map.mp hx
  exact mul_pos (h lv hlv).2 (h lv hlv).1

theorem depth_zero (l : List Level) (h : ∀ lv ∈ l, lv.qty = 0) :
    ((l.map fun lv => lv.qty * lv.price).sum) = 0 := by
  refine List.sum_eq_zero ?_
  intro x hx
  obtain ⟨lv, hlv, rfl⟩ := List.mem_map.mp hx
  simp [h lv hlv]

theorem exists_map_num_of_checkFinite (xs : List FP)
    (h : Sklearn.checkFinite xs = true) : ∃ qs : List ℚ, xs = qs.map FP.num := by
  induction xs with
  | nil => exact ⟨[], rfl⟩
  | cons x rest ih =>
      rw [Sklearn.checkFinite, List.all_cons, Bool.and_eq_true] at h
      obtain ⟨qs, rfl⟩ := ih h.2
      cases x with
      | num q => exact ⟨q :: qs, rfl⟩
      | inf => exact absurd h.1 (by simp [FP.isFinite])
      | ninf => exact absurd h.1 (by simp [FP.isFinite])
      | nan => exact absurd h.1 (by simp [FP.isFinite])

theorem dot_map_num (ws qs : List ℚ) :
    Sklearn.dot ws (qs.map FP.num) =
      FP.num (((qs.zip ws).map fun p => p.1 * p.2).sum) := by
  unfold Sklearn.dot
  rw [List.zip_map_left, List.map_map]
  have hc : ((fun p : FP × ℚ => p.1 * FP.num p.2) ∘ Prod.map FP.num id) =
      fun p : ℚ × ℚ => FP.num (p.1 * p.2) := by
    funext p
    cases p
    simp [Prod.map]
  rw [hc]
  exact FP.sum_map_num _ _

/-- The trained branch of `SlippageModel.calculate` is clamped with
Python's `max(0.0, ·)`, so every trained-mode outcome — including every
exception default — is non-negative, for any book whatsoever. -/
theorem slippage_trained_nonneg (g : ℚ → ℚ) (st : SlippageModel.State)
    (b : Book) (q : ℚ) (h : st.is_trained = true) :
    FP.nonneg (SlippageModel.calculate g st b q) = true := by
  have hz : FP.nonneg (FP.num 0) = true := by simp [FP.nonneg]
  unfold SlippageModel.calculate SlippageModel.calcCore
  cases hf : SlippageModel.extractFeatures g b q with
  | error e => simp [hf, hz]
  | ok feats =>
      cases ht : Sklearn.transform st.means st.scales feats with
      | error e => simp [hf, ht, h, hz]
      | ok scaled =>
          cases hp : Sklearn.predictLin st.weights st.intercept scaled with
          | error e => simp [hf, ht, hp, h, hz]
          | ok pred => simp [hf, ht, hp, h, FP.nonneg_pyMax_zero]

/-- Evaluation of the heuristic slippage on an explicit nonempty book
with nonzero mid-price and nonzero total depth. -/
theorem heuristicSlippage_eq (a0 b0 : Level) (as bs : List Level) (q : ℚ)
    (hmid : (a0.price + b0.price) / 2 ≠ 0)
    (hdep : (((a0 :: as).map fun lv => lv.qty * lv.price).sum +
             ((b0 :: bs).map fun lv => lv.qty * lv.price).sum) ≠ 0) :
    SlippageModel.calculateHeuristicSlippage ⟨a0 :: as, b0 :: bs⟩ q =
      Except.ok (FP.num (
        (a0.price - b0.price) / ((a0.price + b0.price) / 2) * 100 * (1/2) +
        q / (((a0 :: as).map fun lv => lv.qty * lv.price).sum +
             ((b0 :: bs).map fun lv => lv.qty * lv.price).sum) * 100 * (1/2))) := by
  rw [SlippageModel.calculateHeuristicSlippage]
  simp only [FP.add_def, FP.add_num, FP.sub_def, FP.sub_num,
    FP.mul_def, FP.mul_num, FP.div_def, depth_sum,
    FP.div_num_of_ne _ (two_ne_zero (α := ℚ)),
    FP.div_num_of_ne _ hmid, FP.div_num_of_ne _ hdep]

/-- C2 (corrected): for a valid book (both sides nonempty, all prices
and quantities positive) that is NOT crossed (`best bid ≤ best ask`) and
a positive quantity, slippage is non-negative in whichever mode the
model is in; and in trained mode the clamp makes the result
non-negative unconditionally.  (For crossed books in heuristic mode the
result can be negative — see the counterexample.) -/
theorem C2_slippage_nonneg (g : ℚ → ℚ) (st : SlippageModel.State)
    (b : Book) (q : ℚ) (a0 b0 : Level) (as bs : List Level)
    (hA : b.asks = a0 :: as) (hB : b.bids = b0 :: bs)
    (hask : ∀ l ∈ b.asks, 0 < l.price ∧ 0 < l.qty)
    (hbid : ∀ l ∈ b.bids, 0 < l.price ∧ 0 < l.qty)
    (hq : 0 < q) (hcross : b0.price ≤ a0.price) :
    FP.nonneg (SlippageModel.calculate g st b q) = true ∧
    (∀ (g' : ℚ → ℚ) (st' : SlippageModel.State) (b' : Book) (q' : ℚ),
      st'.is_trained = true →
      FP.nonneg (SlippageModel.calculate g' st' b' q') = true) := by
  refine ⟨?_, fun g' st' b' q' h' => slippage_trained_nonneg g' st' b' q' h'⟩
  by_cases htr : st.is_trained = true
  · exact slippage_trained_nonneg g st b q htr
  · obtain ⟨A, B⟩ := b
    simp only at hA hB
    subst hA hB
    have htr' : st.is_trained = false := by
      cases hv : st.is_trained
      · rfl
      · exact absurd hv htr
    have ha0 : 0 < a0.price ∧ 0 < a0.qty := hask a0 (by simp)
    have hb0 : 0 < b0.price ∧ 0 < b0.qty := hbid b0 (by simp)
    have hmid : (0 : ℚ) < (a0.price + b0.price) / 2 := by
      have := ha0.1; have := hb0.1; linarith
    have hda : 0 < (((a0 :: as).map fun lv => lv.qty * lv.price).sum) :=
      depth_pos _ (by simp) hask
    have hdb : 0 < (((b0 :: bs).map fun lv => lv.qty * lv.price).sum) :=
      depth_pos _ (by simp) hbid
    have hdep : (0 : ℚ) <
        (((a0 :: as).map fun lv => lv.qty * lv.price).sum) +
        (((b0 :: bs).map fun lv => lv.qty * lv.price).sum) := by linarith
    unfold SlippageModel.calculate SlippageModel.calcCore
    cases hf : SlippageModel.extractFeatures g ⟨a0 :: as, b0 :: bs⟩ q with
    | error e =>
        exact absurd hf (by simp [SlippageModel.extractFeatures])
    | ok feats =>
        simp only [hf, htr', eq_self_iff_true, if_true,
          heuristicSlippage_eq a0 b0 as bs q hmid.ne' hdep.ne']
        rw [FP.nonneg_num, decide_eq_true_eq]
        have hs : (0 : ℚ) ≤ (a0.price - b0.price) / ((a0.price + b0.price) / 2) * 100 := by
          have h1 : (0 : ℚ) ≤ (a0.price - b0.price) / ((a0.price + b0.price) / 2) :=
            div_nonneg (by linarith) hmid.le
          linarith
        have ht : (0 : ℚ) ≤ q /
            ((((a0 :: as).map fun lv => lv.qty * lv.price).sum) +
             (((b0 :: bs).map fun lv => lv.qty * lv.price).sum)) * 100 := by
          have h1 : (0 : ℚ) ≤ q /
              ((((a0 :: as).map fun lv => lv.qty * lv.price).sum) +
               (((b0 :: bs).map fun lv => lv.qty * lv.price).sum)) :=
            div_nonneg hq.le hdep.le
          linarith
        linarith

/-- C2 witness: a valid non-crossed one-level book, quantity 1,
untrained model: the heuristic value is non-negative (and the trained
clause holds at a concrete trained state). -/
theorem C2_slippage_nonneg_witness :
    FP.nonneg (SlippageModel.calculate (fun _ => 0) SlippageModel.initState
      ⟨[⟨101, 2⟩], [⟨100, 3⟩]⟩ 1) = true ∧
    FP.nonneg (SlippageModel.calculate (fun _ => 0) ⟨true, [], [], [], 0⟩
      ⟨[⟨101, 2⟩], [⟨100, 3⟩]⟩ 1) = true := by
  have h := C2_slippage_nonneg (fun _ => 0) SlippageModel.initState
    ⟨[⟨101, 2⟩], [⟨100, 3⟩]⟩ 1 ⟨101, 2⟩ ⟨100, 3⟩ [] []
    rfl rfl
    (by intro l hl; simp at hl; subst hl; exact ⟨by norm_num, by norm_num⟩)
    (by intro l hl; simp at hl; subst hl; exact ⟨by norm_num, by norm_num⟩)
    (by norm_num) (by norm_num)
  exact ⟨h.1, h.2 (fun _ => 0) ⟨true, [], [], [], 0⟩ ⟨[⟨101, 2⟩], [⟨100, 3⟩]⟩ 1 rfl⟩

/-- A successful binary `predict_proba` returns a pair
`(1 − σ, σ)` with `σ` strictly between 0 and 1, provided the
exponential parameter is positive everywhere (as the real `exp` is). -/
theorem predictProba_ok (e : ℚ → ℚ) (he : ∀ x, 0 < e x) (ws : List ℚ)
    (b : ℚ) (xs : List FP) (pr : FP × FP)
    (h : Sklearn.predictProbaBinary e ws b xs = Except.ok pr) :
    ∃ s : ℚ, pr = (FP.num (1 - s), FP.num s) ∧ 0 < s ∧ s < 1 := by
  unfold Sklearn.predictProbaBinary at h
  by_cases hcf : Sklearn.checkFinite xs = true
  · by_cases hlen : xs.length = ws.length
    · obtain ⟨qs, rfl⟩ := exists_map_num_of_checkFinite xs hcf
      simp only [hcf, Bool.not_true, Bool.false_eq_true, if_false, hlen,
        ne_eq, not_true_eq_false, dot_map_num] at h
      set d : ℚ := ((qs.zip ws).map fun p => p.1 * p.2).sum with hd
      have hε : 0 < e (-(d + b)) := he _
      have hden : (1 : ℚ) + e (-(d + b)) ≠ 0 := by linarith
      rw [show FP.neg (FP.num d + FP.num b) = FP.num (-(d + b)) by
        simp [FP.neg_num]] at h
      simp only [FP.expWith, FP.add_def, FP.add_num, FP.div_def,
        FP.div_num_of_ne _ hden, FP.sub_def, FP.sub_num] at h
      refine ⟨1 / (1 + e (-(d + b))), (Except.ok.inj h).symm, by positivity, ?_⟩
      rw [div_lt_one (by linarith)]
      linarith
    · simp [hcf, hlen] at h
  · simp [Bool.not_eq_true] at hcf
    simp [hcf] at h

/-- A successful heuristic maker/taker computation returns
`(m, 100 − m)` with `m` clamped into `[0, 100]`. -/
theorem heurProportions_ok (b : Book) (q : ℚ) (pr : FP × FP)
    (h : MakerTakerModel.calculateHeuristicProportions b q = Except.ok pr) :
    ∃ m : ℚ, pr = (FP.num m, FP.num (100 - m)) ∧ 0 ≤ m ∧ m ≤ 100 := by
  obtain ⟨A, B⟩ := b
  cases A with
  | nil => exact absurd h (by simp [MakerTakerModel.calculateHeuristicProportions])
  | cons a0 as =>
  cases B with
  | nil => exact absurd h (by simp [MakerTakerModel.calculateHeuristicProportions])
  | cons b0 bs =>
  obtain ⟨m, hm, hm0, hm1⟩ := FP.clamp_mem
    (FP.num 50 +
      (FP.num a0.price - FP.num b0.price) /
          ((FP.num a0.price + FP.num b0.price) / FP.num 2) * FP.num 100 *
        FP.num 2 -
      FP.num q /
          (FP.sum ((a0 :: as).map fun l => FP.num l.qty * FP.num l.price) +
           FP.sum ((b0 :: bs).map fun l => FP.num l.qty * FP.num l.price)) *
        FP.num 100)
  have hred : MakerTakerModel.calculateHeuristicProportions ⟨a0 :: as, b0 :: bs⟩ q =
      Except.ok (FP.num m, FP.num 100 - FP.num m) := by
    rw [← hm]; rfl
  rw [hred, Except.ok.injEq] at h
  refine ⟨m, ?_, hm0, hm1⟩
  rw [← h]
  simp

/-- Every successful `MakerTakerModel.calcCore` outcome — heuristic or
trained — is a pair `(m, 100 − m)` with `m ∈ [0, 100]`. -/
theorem mtCalcCore_ok (g eFn : ℚ → ℚ) (he : ∀ x, 0 < eFn x)
    (st : MakerTakerModel.State) (b : Book) (q : ℚ) (pr : FP × FP)
    (h : MakerTakerModel.calcCore g eFn st b q = Except.ok pr) :
    ∃ m : ℚ, pr = (FP.num m, FP.num (100 - m)) ∧ 0 ≤ m ∧ m ≤ 100 := by
  rw [MakerTakerModel.calcCore] at h
  cases hf : MakerTakerModel.extractFeatures g b q with
  | error e => rw [hf] at h; simp at h
  | ok feats =>
      rw [hf] at h
      by_cases htr : st.is_trained = false
      · simp only [htr, eq_self_iff_true, if_true] at h
        exact heurProportions_ok b q pr h
      · have htr' : st.is_trained = true := by
          revert htr; cases st.is_trained <;> simp
        simp only [htr', Bool.true_eq_false, if_false] at h
        cases ht : Sklearn.transform st.means st.scales feats with
        | error e => rw [ht] at h; simp at h
        | ok scaled =>
            rw [ht] at h
            simp only [Except.ok.injEq] at h
            cases hp : Sklearn.predictProbaBinary eFn st.weights st.intercept scaled with
            | error e => rw [hp] at h; simp at h
            | ok probs =>
                rw [hp] at h
                simp only [Except.ok.injEq] at h
                obtain ⟨s, hs, hs0, hs1⟩ := predictProba_ok eFn he
                  st.weights st.intercept scaled probs hp
                refine ⟨(1 - s) * 100, ?_, by linarith, by linarith⟩
                rw [← h]
                simp only [hs, FP.mul_def, FP.mul_num]
                rw [Prod.mk.injEq]
                refine ⟨rfl, ?_⟩
                congr 1
                ring

/-- C2 counterexample: a crossed book (best bid 100 > best ask 1) with
positive prices/quantities and positive order quantity is accepted and
processed, and the untrained heuristic returns a negative slippage,
refuting "calculate returns a value ≥ 0 … including crossed books …
in the untrained heuristic mode". -/
theorem C2_counterexample :
    FP.nonneg (SlippageModel.calculate (fun _ => 0) SlippageModel.initState
      ⟨[⟨1, 1⟩], [⟨100, 1⟩]⟩ 1) = false := by
  unfold SlippageModel.calculate SlippageModel.calcCore SlippageModel.initState
  rw [heuristicSlippage_eq ⟨1, 1⟩ ⟨100, 1⟩ [] [] 1 (by norm_num) (by norm_num)]
  simp only [SlippageModel.extractFeatures, FP.nonneg]
  norm_num

theorem mean_map_num_ne (l : List ℚ) (h : l ≠ []) :
    FP.mean (l.map FP.num) = FP.num (l.sum / (l.length : ℚ)) := by
  simpa using FP.mean_map_num id l h

/-- Reduction of `_calculate_temporary_impact` on equal-length sides
with positive quantities: numpy takes the equal-length branch of the
broadcast and every operation stays finite. -/
theorem temporaryImpact_eq (a0 b0 : Level) (as bs : List Level) (q : ℚ)
    (hlen : (a0 :: as).length = (b0 :: bs).length)
    (hqty : ∀ l ∈ (a0 :: as) ++ (b0 :: bs), 0 < l.qty) :
    MarketImpactModel.calculateTemporaryImpact (a0 :: as) (b0 :: bs) q =
      Except.ok (FP.num ((1/10) *
        ((List.zipWith (fun a c => a - c)
            ((a0 :: as).map (·.price)) ((b0 :: bs).map (·.price))).sum /
          (((List.zipWith (fun a c => a - c)
            ((a0 :: as).map (·.price)) ((b0 :: bs).map (·.price))).length : ℚ)) /
         (((a0 :: as).map (·.qty) ++ (b0 :: bs).map (·.qty)).sum /
          ((((a0 :: as).map (·.qty) ++ (b0 :: bs).map (·.qty)).length : ℚ)))))) := by
  have hlen' : ((a0 :: as).map (·.price)).length =
      ((b0 :: bs).map (·.price)).length := by simpa using hlen
  have hzne : (List.zipWith (fun a c : ℚ => a - c) ((a0 :: as).map (·.price))
      ((b0 :: bs).map (·.price))) ≠ [] := by
    refine List.ne_nil_of_length_pos ?_
    rw [List.length_zipWith]
    simp
  have hqne : ((a0 :: as).map (·.qty) ++ (b0 :: bs).map (·.qty)) ≠ [] := by simp
  have havg : 0 < ((a0 :: as).map (·.qty) ++ (b0 :: bs).map (·.qty)).sum /
      ((((a0 :: as).map (·.qty) ++ (b0 :: bs).map (·.qty)).length : ℚ)) := by
    apply div_pos
    · refine List.sum_pos _ ?_ hqne
      intro x hx
      simp only [List.mem_append, List.mem_map] at hx
      rcases hx with ⟨l, hl, rfl⟩ | ⟨l, hl, rfl⟩
      · exact hqty l (List.mem_append_left _ hl)
      · exact hqty l (List.mem_append_right _ hl)
    · have h : 0 < ((a0 :: as).map (·.qty) ++ (b0 :: bs).map (·.qty)).length := by
        simp
      exact_mod_cast h
  unfold MarketImpactModel.calculateTemporaryImpact MarketImpactModel.broadcastSub
  rw [if_pos hlen']
  simp only [FP.sub_def, FP.sub_num]
  rw [show (List.zipWith (fun a c : ℚ => FP.num (a - c)) ((a0 :: as).map (·.price))
      ((b0 :: bs).map (·.price))) =
    (List.zipWith (fun a c : ℚ => a - c) ((a0 :: as).map (·.price))
      ((b0 :: bs).map (·.price))).map FP.num from (List.map_zipWith _ _ _ _).symm]
  rw [mean_map_num_ne _ hzne, mean_map_num_ne _ hqne]
  rw [FP.div_def, FP.div_num_of_ne _ havg.ne', FP.mul_def, FP.mul_num]

set_option maxHeartbeats 1000000 in
/-- C5 (confirmed): for a non-degenerate book (nonempty sides of equal
length, positive quantities), positive order quantity, volatility in
`[0, 1]`, positive real square root of the level count and positive
execution-time factor (`0 < 1 + log10(q)/3 + 2·vol`, true for the real
`log10` whenever the formula's domain is respected),
`MarketImpactModel.calculate` returns exactly the specification formula
`(eta×Q/T + gamma×Q + lambda×vol×sqrt(T)) / Q × 100` with
`eta = 0.1 × mean(ask−bid) / mean(depth)`, `gamma = 0.05/sqrt(levels)`,
`lambda = 0.1×(1+vol)`, `T = 300×(1+log10(Q)/3+2·vol)`. -/
theorem C5_market_impact_formula (f g : ℚ → ℚ) (b : Book) (q vol : ℚ)
    (a0 b0 : Level) (as bs : List Level)
    (hA : b.asks = a0 :: as) (hB : b.bids = b0 :: bs)
    (hlen : b.asks.length = b.bids.length)
    (hqty : ∀ l ∈ b.asks ++ b.bids, 0 < l.qty)
    (hq : 0 < q) (_hv0 : 0 ≤ vol) (_hv1 : vol ≤ 1)
    (hfl : 0 < f ((b.asks.length : ℚ)))
    (hT : 0 < 1 + g q / 3 + vol * 2) :
    MarketImpactModel.calculate f g b q vol =
      FP.num (MarketImpactModel.calculateSpec f g b q vol) := by
  obtain ⟨A, B⟩ := b
  simp only at hA hB hlen hqty hfl
  subst hA hB
  have hTq : (0 : ℚ) < 300 * (1 + g q / 3 + vol * 2) := by linarith
  have h1 : ¬ ((((a0 :: as).length : ℕ) : ℚ) < 0) := not_lt.mpr (by positivity)
  have h2 : ¬ (q < 0) := not_lt.mpr hq.le
  have h4 : ¬ (q = 0) := hq.ne'
  have h5 : (3 : ℚ) ≠ 0 := by norm_num
  have h6 : (300 : ℚ) * (1 + g q / 3 + vol * 2) ≠ 0 := hTq.ne'
  have h7 : ¬ ((300 : ℚ) * (1 + g q / 3 + vol * 2) < 0) := not_lt.mpr hTq.le
  have h8 : f ((((a0 :: as).length : ℕ) : ℚ)) ≠ 0 := hfl.ne'
  unfold MarketImpactModel.calculate MarketImpactModel.calcCore
  simp only [temporaryImpact_eq a0 b0 as bs q hlen hqty,
    MarketImpactModel.calculatePermanentImpact,
    MarketImpactModel.calculateOptimalTime, FP.sqrtWith, FP.log10With,
    FP.add_def, FP.add_num, FP.mul_def, FP.mul_num, FP.div_def,
    h1, h2, h4, h5, h6, h7, h8, if_false,
    FP.div_num_of_ne _ h5, FP.div_num_of_ne _ h6, FP.div_num_of_ne _ h8,
    FP.div_num_of_ne _ hq.ne']
  rw [MarketImpactModel.calculateSpec]
  simp only [MarketImpactModel.listMean, List.map_append]
  congr 1
  field_simp
  ring

/-- C5 witness: two-level book, quantity 10, volatility 1/2, with
`sqrt`/`log10` stand-ins `fun _ => 1`: the code's value equals the
specification formula's value, `4033/700`. -/
theorem C5_market_impact_formula_witness :
    MarketImpactModel.calculate (fun _ => 1) (fun _ => 1)
      ⟨[⟨101, 2⟩, ⟨102, 3⟩], [⟨100, 1⟩, ⟨99, 4⟩]⟩ 10 (1/2) =
      FP.num (4033/700) := by
  rw [C5_market_impact_formula (fun _ => 1) (fun _ => 1)
    ⟨[⟨101, 2⟩, ⟨102, 3⟩], [⟨100, 1⟩, ⟨99, 4⟩]⟩ 10 (1/2) ⟨101, 2⟩ ⟨100, 1⟩
    [⟨102, 3⟩] [⟨99, 4⟩] rfl rfl rfl
    (by intro l hl; simp at hl; rcases hl with rfl | rfl | rfl | rfl <;> norm_num)
    (by norm_num) (by norm_num) (by norm_num) (by norm_num) (by norm_num)]
  norm_num [MarketImpactModel.calculateSpec, MarketImpactModel.listMean]

/-- C6 (confirmed): for every book and quantity, the maker and taker
values returned by `MakerTakerModel.calculate` sum exactly to 100 and
each lies in `[0, 100]`, in the untrained heuristic mode (via the
explicit clamp), in the trained mode (binary `predict_proba` returns
`(1 − σ(z), σ(z))` with the logistic `σ` strictly inside `(0, 1)`,
given that the exponential is positive), and on the exception path
(`{maker: 50, taker: 50}`).  The sum is exactly 100 in exact
arithmetic, hence within the claimed `1e-6`. -/
theorem C6_maker_taker_sum (g eFn : ℚ → ℚ) (st : MakerTakerModel.State)
    (b : Book) (q : ℚ) (he : ∀ x, 0 < eFn x) :
    (MakerTakerModel.calculate g eFn st b q).1 +
      (MakerTakerModel.calculate g eFn st b q).2 = FP.num 100 ∧
    FP.inPct (MakerTakerModel.calculate g eFn st b q).1 = true ∧
    FP.inPct (MakerTakerModel.calculate g eFn st b q).2 = true := by
  unfold MakerTakerModel.calculate
  cases hc : MakerTakerModel.calcCore g eFn st b q with
  | error e =>
      refine ⟨by norm_num, ?_, ?_⟩ <;>
        · simp only [FP.inPct_num, decide_eq_true_eq]
          norm_num
  | ok pr =>
      obtain ⟨m, hm, hm0, hm1⟩ := mtCalcCore_ok g eFn he st b q pr hc
      subst hm
      refine ⟨?_, ?_, ?_⟩
      · simp only [FP.add_def, FP.add_num]
        congr 1
        ring
      · simp only [FP.inPct_num, decide_eq_true_eq]
        exact ⟨hm0, hm1⟩
      · simp only [FP.inPct_num, decide_eq_true_eq]
        constructor <;> linarith

/-- C6 witness: concrete book, quantity 5, untrained state, exponential
stand-in `fun _ => 1`: maker + taker = 100 and both lie in `[0, 100]`. -/
theorem C6_maker_taker_sum_witness :
    (MakerTakerModel.calculate (fun _ => 0) (fun _ => 1)
        MakerTakerModel.initState ⟨[⟨101, 2⟩], [⟨100, 3⟩]⟩ 5).1 +
      (MakerTakerModel.calculate (fun _ => 0) (fun _ => 1)
        MakerTakerModel.initState ⟨[⟨101, 2⟩], [⟨100, 3⟩]⟩ 5).2 = FP.num 100 ∧
    FP.inPct (MakerTakerModel.calculate (fun _ => 0) (fun _ => 1)
        MakerTakerModel.initState ⟨[⟨101, 2⟩], [⟨100, 3⟩]⟩ 5).1 = true ∧
    FP.inPct (MakerTakerModel.calculate (fun _ => 0) (fun _ => 1)
        MakerTakerModel.initState ⟨[⟨101, 2⟩], [⟨100, 3⟩]⟩ 5).2 = true :=
  C6_maker_taker_sum (fun _ => 0) (fun _ => 1) MakerTakerModel.initState
    ⟨[⟨101, 2⟩], [⟨100, 3⟩]⟩ 5 (fun _ => by norm_num)

/-- On a nonempty book whose quantities are all zero (zero total depth)
the untrained slippage heuristic divides by zero: numpy raises no
exception, nothing is logged, and the call returns `+∞` — there is no
guard and no safe default on this path. -/
theorem slippage_zero_depth_inf (g : ℚ → ℚ) (st : SlippageModel.State)
    (b : Book) (q : ℚ) (a0 b0 : Level) (as bs : List Level)
    (htr : st.is_trained = false) (hA : b.asks = a0 :: as)
    (hB : b.bids = b0 :: bs)
    (hask : ∀ l ∈ b.asks, 0 < l.price ∧ l.qty = 0)
    (hbid : ∀ l ∈ b.bids, 0 < l.price ∧ l.qty = 0) (hq : 0 < q) :
    SlippageModel.calculate g st b q = FP.inf := by
  obtain ⟨A, B⟩ := b
  simp only at hA hB hask hbid
  subst hA hB
  have hp0 : 0 < a0.price := (hask a0 (by simp)).1
  have hp1 : 0 < b0.price := (hbid b0 (by simp)).1
  have hmid : (a0.price + b0.price) / 2 ≠ 0 := by positivity
  have hza : ((a0 :: as).map fun lv => lv.qty * lv.price).sum = 0 :=
    depth_zero _ (fun lv hl => (hask lv hl).2)
  have hzb : ((b0 :: bs).map fun lv => lv.qty * lv.price).sum = 0 :=
    depth_zero _ (fun lv hl => (hbid lv hl).2)
  unfold SlippageModel.calculate SlippageModel.calcCore
  cases hf : SlippageModel.extractFeatures g ⟨a0 :: as, b0 :: bs⟩ q with
  | error e => exact absurd hf (by simp [SlippageModel.extractFeatures])
  | ok feats =>
      simp only [hf, htr, eq_self_iff_true, if_true]
      rw [SlippageModel.calculateHeuristicSlippage]
      simp only [FP.add_def, FP.add_num, FP.sub_def, FP.sub_num, FP.mul_def,
        FP.mul_num, FP.div_def, depth_sum, hza, hzb,
        FP.div_num_of_ne _ (two_ne_zero (α := ℚ)), FP.div_num_of_ne _ hmid]
      rw [show (0 : ℚ) + 0 = 0 by norm_num]
      rw [FP.div_num_zero_pos q hq, FP.mul_inf_num 100 (by norm_num),
        FP.mul_inf_num (1/2) (by norm_num), FP.add_num_inf]

/-- C7 (corrected): with an empty side (degenerate book) every model's
`calculate` catches the `IndexError` and returns its safe default
(`0.0` impact, `{maker: 50, taker: 50}`, `0.0` slippage) — but the
slippage heuristic is NOT guarded against divide-by-zero: on a nonempty
zero-depth book the numpy division silently produces `+∞`, which is
returned as-is with nothing caught or logged. -/
theorem C7_model_error_defaults :
    (∀ (f g : ℚ → ℚ) (b : Book) (q vol : ℚ), b.asks = [] ∨ b.bids = [] →
      MarketImpactModel.calculate f g b q vol = FP.num 0) ∧
    (∀ (g eFn : ℚ → ℚ) (st : MakerTakerModel.State) (b : Book) (q : ℚ),
      b.asks = [] ∨ b.bids = [] →
      MakerTakerModel.calculate g eFn st b q = (FP.num 50, FP.num 50)) ∧
    (∀ (g : ℚ → ℚ) (st : SlippageModel.State) (b : Book) (q : ℚ),
      b.asks = [] ∨ b.bids = [] →
      SlippageModel.calculate g st b q = FP.num 0) ∧
    (∀ (g : ℚ → ℚ) (st : SlippageModel.State) (b : Book) (q : ℚ)
       (a0 b0 : Level) (as bs : List Level),
      st.is_trained = false → b.asks = a0 :: as → b.bids = b0 :: bs →
      (∀ l ∈ b.asks, 0 < l.price ∧ l.qty = 0) →
      (∀ l ∈ b.bids, 0 < l.price ∧ l.qty = 0) → 0 < q →
      SlippageModel.calculate g st b q = FP.inf) := by
  refine ⟨?_, ?_, ?_, fun g st b q a0 b0 as bs h1 h2 h3 h4 h5 h6 =>
    slippage_zero_depth_inf g st b q a0 b0 as bs h1 h2 h3 h4 h5 h6⟩
  · intro f g b q vol h
    obtain ⟨A, B⟩ := b
    simp only at h
    rcases h with rfl | rfl
    · simp [MarketImpactModel.calculate, MarketImpactModel.calcCore]
    · cases A <;> simp [MarketImpactModel.calculate, MarketImpactModel.calcCore]
  · intro g eFn st b q h
    obtain ⟨A, B⟩ := b
    simp only at h
    rcases h with rfl | rfl
    · simp [MakerTakerModel.calculate, MakerTakerModel.calcCore,
        MakerTakerModel.extractFeatures]
    · cases A <;> simp [MakerTakerModel.calculate, MakerTakerModel.calcCore,
        MakerTakerModel.extractFeatures]
  · intro g st b q h
    obtain ⟨A, B⟩ := b
    simp only at h
    rcases h with rfl | rfl
    · simp [SlippageModel.calculate, SlippageModel.calcCore,
        SlippageModel.extractFeatures]
    · cases A <;> simp [SlippageModel.calculate, SlippageModel.calcCore,
        SlippageModel.extractFeatures]

/-- C7 witness: concrete empty-side books produce the three documented
defaults, and a concrete zero-depth book makes the untrained slippage
heuristic return `+∞`. -/
theorem C7_model_error_defaults_witness :
    MarketImpactModel.calculate (fun _ => 1) (fun _ => 1) ⟨[], [⟨100, 3⟩]⟩
      10 0 = FP.num 0 ∧
    MakerTakerModel.calculate (fun _ => 0) (fun _ => 1)
      MakerTakerModel.initState ⟨[], [⟨100, 3⟩]⟩ 10 = (FP.num 50, FP.num 50) ∧
    SlippageModel.calculate (fun _ => 0) SlippageModel.initState
      ⟨[⟨101, 2⟩], []⟩ 10 = FP.num 0 ∧
    SlippageModel.calculate (fun _ => 0) SlippageModel.initState
      ⟨[⟨101, 0⟩], [⟨100, 0⟩]⟩ 100 = FP.inf := by
  refine ⟨C7_model_error_defaults.1 _ _ _ _ _ (Or.inl rfl),
          C7_model_error_defaults.2.1 _ _ _ _ _ (Or.inl rfl),
          C7_model_error_defaults.2.2.1 _ _ _ _ (Or.inr rfl),
          C7_model_error_defaults.2.2.2 _ _ _ _ ⟨101, 0⟩ ⟨100, 0⟩ [] []
            rfl rfl rfl ?_ ?_ (by norm_num)⟩
  · intro l hl; simp at hl; subst hl; exact ⟨by norm_num, rfl⟩
  · intro l hl; simp at hl; subst hl; exact ⟨by norm_num, rfl⟩

theorem slipTrainCore_trained (g : ℚ → ℚ)
    (fs : List (List ℚ) → List ℚ × List ℚ)
    (fl : List (List ℚ) → List ℚ → List ℚ × ℚ)
    (data : List SlippageModel.Sample) (st' : SlippageModel.State)
    (h : SlippageModel.trainCore g fs fl data = Except.ok st') :
    st'.is_trained = true := by
  unfold SlippageModel.trainCore at h
  cases he : SlippageModel.extractAll g data with
  | error e => rw [he] at h; simp at h
  | ok feats =>
      rw [he] at h
      simp only [Except.ok.injEq] at h
      cases hm : Sklearn.toMatrix feats with
      | error e => rw [hm] at h; simp at h
      | ok Xq =>
          rw [hm] at h
          simp only [Except.ok.injEq] at h
          rw [← h]

theorem mtTrainCore_trained (g : ℚ → ℚ)
    (fs : List (List ℚ) → List ℚ × List ℚ)
    (fl : List (List ℚ) → List ℚ → List ℚ × ℚ)
    (data : List MakerTakerModel.Sample) (st' : MakerTakerModel.State)
    (h : MakerTakerModel.trainCore g fs fl data = Except.ok st') :
    st'.is_trained = true := by
  unfold MakerTakerModel.trainCore at h
  cases he : MakerTakerModel.extractAll g data with
  | error e => rw [he] at h; simp at h
  | ok feats =>
      rw [he] at h
      simp only [Except.ok.injEq] at h
      cases hm : Sklearn.toMatrix feats with
      | error e => rw [hm] at h; simp at h
      | ok Xq =>
          rw [hm] at h
          by_cases hcls : ((data.map (·.execution_type)).dedup).length < 2
          · simp only [hcls, if_true] at h
            simp at h
          · simp only [hcls, if_false] at h
            simp only [Except.ok.injEq] at h
            rw [← h]

/-- C8 (corrected): both `train` methods never raise; on empty input
they return early leaving the state UNCHANGED (so `is_trained` keeps
its prior value — in particular it stays `false` when the model was
untrained, but stays `true` on an already-trained model, contrary to
the claim's "leaves/resets to is_trained=false"); and on nonempty
input, success sets `is_trained = true` while any exception resets
`is_trained = false`. -/
theorem C8_train_flag_policy :
    (∀ (g : ℚ → ℚ) (fs : List (List ℚ) → List ℚ × List ℚ)
       (fl : List (List ℚ) → List ℚ → List ℚ × ℚ) (st : SlippageModel.State),
      SlippageModel.train g fs fl st [] = st) ∧
    (∀ (g : ℚ → ℚ) (fs : List (List ℚ) → List ℚ × List ℚ)
       (fl : List (List ℚ) → List ℚ → List ℚ × ℚ) (st : MakerTakerModel.State),
      MakerTakerModel.train g fs fl st [] = st) ∧
    (∀ (g : ℚ → ℚ) (fs : List (List ℚ) → List ℚ × List ℚ)
       (fl : List (List ℚ) → List ℚ → List ℚ × ℚ) (st : SlippageModel.State),
      st.is_trained = false →
      (SlippageModel.train g fs fl st []).is_trained = false) ∧
    (∀ (g : ℚ → ℚ) (fs : List (List ℚ) → List ℚ × List ℚ)
       (fl : List (List ℚ) → List ℚ → List ℚ × ℚ) (st : MakerTakerModel.State),
      st.is_trained = false →
      (MakerTakerModel.train g fs fl st []).is_trained = false) ∧
    (∀ (g : ℚ → ℚ) (fs : List (List ℚ) → List ℚ × List ℚ)
       (fl : List (List ℚ) → List ℚ → List ℚ × ℚ) (st : SlippageModel.State)
       (data : List SlippageModel.Sample) (st' : SlippageModel.State),
      data ≠ [] → SlippageModel.trainCore g fs fl data = Except.ok st' →
      SlippageModel.train g fs fl st data = st' ∧ st'.is_trained = true) ∧
    (∀ (g : ℚ → ℚ) (fs : List (List ℚ) → List ℚ × List ℚ)
       (fl : List (List ℚ) → List ℚ → List ℚ × ℚ) (st : SlippageModel.State)
       (data : List SlippageModel.Sample) (e : String),
      data ≠ [] → SlippageModel.trainCore g fs fl data = Except.error e →
      (SlippageModel.train g fs fl st data).is_trained = false) ∧
    (∀ (g : ℚ → ℚ) (fs : List (List ℚ) → List ℚ × List ℚ)
       (fl : List (List ℚ) → List ℚ → List ℚ × ℚ) (st : MakerTakerModel.State)
       (data : List MakerTakerModel.Sample) (st' : MakerTakerModel.State),
      data ≠ [] → MakerTakerModel.trainCore g fs fl data = Except.ok st' →
      MakerTakerModel.train g fs fl st data = st' ∧ st'.is_trained = true) ∧
    (∀ (g : ℚ → ℚ) (fs : List (List ℚ) → List ℚ × List ℚ)
       (fl : List (List ℚ) → List ℚ → List ℚ × ℚ) (st : MakerTakerModel.State)
       (data : List MakerTakerModel.Sample) (e : String),
      data ≠ [] → MakerTakerModel.trainCore g fs fl data = Except.error e →
      (MakerTakerModel.train g fs fl st data).is_trained = false) := by
  refine ⟨fun g fs fl st => by simp [SlippageModel.train],
          fun g fs fl st => by simp [MakerTakerModel.train],
          fun g fs fl st h => by simp [SlippageModel.train, h],
          fun g fs fl st h => by simp [MakerTakerModel.train, h],
          fun g fs fl st data st' hne hc => ?_,
          fun g fs fl st data e hne hc => ?_,
          fun g fs fl st data st' hne hc => ?_,
          fun g fs fl st data e hne hc => ?_⟩
  · refine ⟨?_, slipTrainCore_trained g fs fl data st' hc⟩
    unfold SlippageModel.train
    rw [if_neg hne, hc]
  · unfold SlippageModel.train
    rw [if_neg hne, hc]
  · refine ⟨?_, mtTrainCore_trained g fs fl data st' hc⟩
    unfold MakerTakerModel.train
    rw [if_neg hne, hc]
  · unfold MakerTakerModel.train
    rw [if_neg hne, hc]

/-- C8 witness: on empty input both models keep their (untrained)
state; a valid one-sample batch trains the slippage model
(`is_trained = true` afterwards); a sample with an empty book makes
slippage training fail and reset `is_trained = false`; a single-class
batch makes logistic training fail (`ValueError`) and reset
`is_trained = false`. -/
theorem C8_train_flag_policy_witness :
    SlippageModel.train (fun _ => 0) (fun _ => ([], [])) (fun _ _ => ([], 0))
      SlippageModel.initState [] = SlippageModel.initState ∧
    MakerTakerModel.train (fun _ => 0) (fun _ => ([], [])) (fun _ _ => ([], 0))
      MakerTakerModel.initState [] = MakerTakerModel.initState ∧
    SlippageModel.train (fun _ => 0) (fun _ => ([], [])) (fun _ _ => ([], 0))
      SlippageModel.initState [⟨⟨[⟨101, 2⟩], [⟨100, 3⟩]⟩, 10, 1/2⟩] =
      ⟨true, [], [], [], 0⟩ ∧
    (SlippageModel.train (fun _ => 0) (fun _ => ([], [])) (fun _ _ => ([], 0))
      SlippageModel.initState [⟨⟨[], []⟩, 10, 1/2⟩]).is_trained = false ∧
    (MakerTakerModel.train (fun _ => 0) (fun _ => ([], [])) (fun _ _ => ([], 0))
      MakerTakerModel.initState
      [⟨⟨[⟨101, 2⟩], [⟨100, 3⟩]⟩, 10, 0⟩]).is_trained = false := by
  refine ⟨C8_train_flag_policy.1 _ _ _ _,
          C8_train_flag_policy.2.1 _ _ _ _,
          (C8_train_flag_policy.2.2.2.2.1 _ _ _ SlippageModel.initState _
            ⟨true, [], [], [], 0⟩ (by simp) ?_).1,
          C8_train_flag_policy.2.2.2.2.2.1 _ _ _ SlippageModel.initState _
            "index 0 is out of bounds" (by simp) (by rfl),
          C8_train_flag_policy.2.2.2.2.2.2.2 _ _ _ MakerTakerModel.initState _
            "This solver needs samples of at least 2 classes" (by simp) ?_⟩
  · norm_num [SlippageModel.trainCore, SlippageModel.extractAll,
      SlippageModel.extractFeatures, Sklearn.toMatrix, Sklearn.rowToRats,
      FP.sum, FP.add, FP.sub, FP.mul, FP.div, FP.fabs, FP.log10With, FP.toRat?]
  · norm_num [MakerTakerModel.trainCore, MakerTakerModel.extractAll,
      MakerTakerModel.extractFeatures, Sklearn.toMatrix, Sklearn.rowToRats,
      FP.sum, FP.add, FP.sub, FP.mul, FP.div, FP.fabs, FP.log10With,
      FP.toRat?, List.dedup]

/-- C9 (confirmed): the aggregator computes
`fees = quantity × fee_rate(fee_tier)` from the static tier table
`{Tier 1: 0.001, Tier 2: 0.0008, Tier 3: 0.0006}` and
`net_cost = (slippage + impact) × quantity / 100 + fees`, where
`slippage` and `impact` are exactly the values returned by
`SlippageModel.calculate` and `MarketImpactModel.calculate` for that
snapshot and quantity (the UI divides the volatility percentage by
100 before passing it on). -/
theorem C9_aggregator_fees_net_cost (f g eFn : ℚ → ℚ)
    (slipSt : SlippageModel.State) (mtSt : MakerTakerModel.State)
    (b : Book) (quantity volPct : ℚ) (t : FeeTier) :
    (MainWindow.onOrderbookUpdate f g eFn slipSt mtSt b quantity volPct t).fees =
      quantity * MainWindow.feeTiers t ∧
    (MainWindow.onOrderbookUpdate f g eFn slipSt mtSt b quantity volPct t).net_cost =
      (SlippageModel.calculate g slipSt b quantity +
        MarketImpactModel.calculate f g b quantity (volPct / 100)) *
        FP.num quantity / FP.num 100 +
        FP.num (quantity * MainWindow.feeTiers t) ∧
    (MainWindow.onOrderbookUpdate f g eFn slipSt mtSt b quantity volPct t).slippage =
      SlippageModel.calculate g slipSt b quantity ∧
    (MainWindow.onOrderbookUpdate f g eFn slipSt mtSt b quantity volPct t).impact =
      MarketImpactModel.calculate f g b quantity (volPct / 100) ∧
    MainWindow.feeTiers FeeTier.tier1 = 1/1000 ∧
    MainWindow.feeTiers FeeTier.tier2 = 8/10000 ∧
    MainWindow.feeTiers FeeTier.tier3 = 6/10000 :=
  ⟨rfl, rfl, rfl, rfl, rfl, rfl, rfl⟩

/-- C10 (corrected): when the number of ask levels differs from the
number of bid levels AND neither side has exactly one level, the
element-wise column subtraction fails to broadcast, numpy raises, and
`MarketImpactModel.calculate` returns the error default `0.0`.  (When
one side has exactly one level, numpy broadcasting makes the
subtraction succeed — see the counterexample.) -/
theorem C10_broadcast_mismatch_default (f g : ℚ → ℚ) (b : Book)
    (q vol : ℚ) (hne : b.asks.length ≠ b.bids.length)
    (ha1 : b.asks.length ≠ 1) (hb1 : b.bids.length ≠ 1) :
    MarketImpactModel.calculate f g b q vol = FP.num 0 := by
  obtain ⟨A, B⟩ := b
  simp only at hne ha1 hb1
  cases A with
  | nil =>
      cases B <;> simp [MarketImpactModel.calculate, MarketImpactModel.calcCore]
  | cons a0 as =>
    cases B with
    | nil => simp [MarketImpactModel.calculate, MarketImpactModel.calcCore]
    | cons b0 bs =>
      rcases as with _ | ⟨a1, as'⟩
      · simp at ha1
      rcases bs with _ | ⟨b1, bs'⟩
      · simp at hb1
      have hne' : as'.length ≠ bs'.length := by simpa using hne
      have hb : MarketImpactModel.broadcastSub
          (a0.price :: a1.price :: as'.map (·.price))
          (b0.price :: b1.price :: bs'.map (·.price)) =
          Except.error "operands could not be broadcast together" := by
        simp [MarketImpactModel.broadcastSub, hne']
      simp [MarketImpactModel.calculate, MarketImpactModel.calcCore,
        MarketImpactModel.calculateTemporaryImpact, hb]

/-- C10 witness: 3 ask levels against 5 bid levels (neither side a
singleton): the broadcast fails and the model returns `0.0`. -/
theorem C10_broadcast_mismatch_default_witness :
    MarketImpactModel.calculate (fun _ => 1) (fun _ => 1)
      ⟨[⟨101, 2⟩, ⟨102, 3⟩, ⟨103, 1⟩],
       [⟨100, 5⟩, ⟨99, 4⟩, ⟨98, 3⟩, ⟨97, 2⟩, ⟨96, 1⟩]⟩ 10 0 = FP.num 0 :=
  C10_broadcast_mismatch_default (fun _ => 1) (fun _ => 1) _ 10 0
    (by simp) (by simp) (by simp)

/-- C10 counterexample: with 2 ask levels and exactly 1 bid level the
lengths differ but numpy broadcasting makes `asks[:,0] - bids[:,0]`
succeed (the single bid price is subtracted from every ask price), no
exception is raised and the model returns a nonzero number, not the
claimed error default `0.0` (here with `sqrt ≈ fun _ => 7/5` at 2 and
`log10 100 = 2`, volatility 0 so the `sqrt(T)` term vanishes). -/
theorem C10_counterexample :
    MarketImpactModel.calculate (fun _ => 7/5) (fun _ => 2)
      ⟨[⟨101, 2⟩, ⟨102, 3⟩], [⟨100, 5⟩]⟩ 100 0 = FP.num (25063/7000) ∧
    FP.num ((25063 : ℚ)/7000) ≠ FP.num 0 := by
  constructor
  · norm_num [MarketImpactModel.calculate, MarketImpactModel.calcCore,
      MarketImpactModel.calculateTemporaryImpact,
      MarketImpactModel.broadcastSub,
      MarketImpactModel.calculatePermanentImpact,
      MarketImpactModel.calculateOptimalTime, FP.mean, FP.sum, FP.add,
      FP.sub, FP.neg, FP.mul, FP.div, FP.sqrtWith, FP.log10With]
  · simp

/-- C8 counterexample: calling `train` with an empty list on an
already-trained model leaves `is_trained = true` — the early
`if not historical_data: return` does not touch the state — refuting
"on an empty sample list … leaves/resets the model to
is_trained=false". -/
theorem C8_counterexample :
    (SlippageModel.train (fun _ => 0) (fun _ => ([], [])) (fun _ _ => ([], 0))
      ⟨true, [], [], [], 0⟩ []).is_trained = true := rfl

/-- C7 counterexample: on the zero-depth book
`asks = [[101, 0]], bids = [[100, 0]]` with quantity 100, the untrained
slippage heuristic returns `+∞` — a non-finite value, not the claimed
guarded/logged safe default (and not `0.0`): the divide-by-zero is not
guarded. -/
theorem C7_counterexample :
    SlippageModel.calculate (fun _ => 0) SlippageModel.initState
      ⟨[⟨101, 0⟩], [⟨100, 0⟩]⟩ 100 = FP.inf ∧
    FP.isFinite FP.inf = false ∧ FP.inf ≠ FP.num 0 := by
  refine ⟨slippage_zero_depth_inf (fun _ => 0) SlippageModel.initState _ 100
    ⟨101, 0⟩ ⟨100, 0⟩ [] [] rfl rfl rfl ?_ ?_ (by norm_num), rfl, by simp⟩
  · intro l hl; simp at hl; subst hl; exact ⟨by norm_num, rfl⟩
  · intro l hl; simp at hl; subst hl; exact ⟨by norm_num, rfl⟩
